import Mathlib

/-!
Shallow embedding of the alpha-tribe-stock-platform backend
(Express + Mongoose) and proofs about its core behaviour:
authentication gating, ownership-checked deletion, the like ledger,
comment creation, validation and pagination.

Identities (Mongo ObjectIds) are modelled as strings; a collection is a
list of records; `findById` is a first-match lookup; `doc.save()` writes
a fetched document back under its id.  External collaborators (bcrypt,
jsonwebtoken) enter as function parameters.
-/

set_option autoImplicit false

namespace AlphaTribe

/-- A stored user record (`src/models/user.model.js`, `UserSchema`).
`password` holds the bcrypt hash at rest. -/
structure User where
  id : String
  username : String
  email : String
  password : String
  bio : String := ""
  profilePicture : String := ""
  createdAt : Nat := 0
  deriving Repr, DecidableEq

/-- A stored post (`Post_Schema`, src/unnamed/part_005): owner reference,
required text fields, tags, comment references, and the like-set
(`likes`, an array of user ids). -/
structure Post where
  id : String
  user : String
  stockSymbol : String
  title : String
  description : String
  tags : List String := []
  comments : List String := []
  likes : List String := []
  createdAt : Nat := 0
  deriving Repr, DecidableEq

/-- A stored comment (`Comment_Schema`): author, parent post, content. -/
structure Comment where
  id : String
  user : String
  post : String
  content : String
  createdAt : Nat := 0
  deriving Repr, DecidableEq

/-- `Model.findById`: first record with the given id. -/
def findPost (posts : List Post) (pid : String) : Option Post :=
  posts.find? (fun p => p.id == pid)

def findUser (users : List User) (uid : String) : Option User :=
  users.find? (fun u => u.id == uid)

def findUserByEmail (users : List User) (email : String) : Option User :=
  users.find? (fun u => u.email == email)

def findComment (comments : List Comment) (cid : String) : Option Comment :=
  comments.find? (fun c => c.id == cid)

/-- `post.save()` on a fetched document: the document is written back
under its id (an atomic single-document write). -/
def savePost (posts : List Post) (p : Post) : List Post :=
  posts.map (fun q => if q.id == p.id then p else q)

/-- JavaScript `s.split(sep)` for a one-character separator, on the
character list: `"" ↦ [""]`, separators at the ends produce empty parts. -/
def splitChars (sep : Char) : List Char → List (List Char)
  | [] => [[]]
  | c :: cs =>
    match splitChars sep cs with
    | [] => if c = sep then [[], [c]] else [[c]]
    | w :: ws => if c = sep then [] :: w :: ws else (c :: w) :: ws

/-- JavaScript `s.split(sep)` for a one-character separator. -/
def jsSplit (s : String) (sep : Char) : List String :=
  (splitChars sep s.toList).map List.asString

/-! ### Registration (`POST /api/auth/register`, src/routes/auth.js 10-33) -/

/-- The register response as sent: status, message, and the echoed
`registeredUser` document (the handler sends the saved Mongoose document
itself, whose `password` field is the stored hash). -/
structure RegisterResult where
  status : Nat
  message : String
  registeredUser : Option User
  deriving Repr, DecidableEq

/-- `authRouter.post("/register")` (src/routes/auth.js 10-33): reject an
already-registered email with 400, otherwise hash the password
(`hash` stands for `bcrypt.hash` with a fresh salt), save, and answer 201
with the whole saved record.  `freshId` is the generated ObjectId. -/
def register (users : List User) (hash : String → String) (freshId : String) (now : Nat)
    (username email password : String) : RegisterResult × List User :=
  match findUserByEmail users email with
  | some _ =>
    ({ status := 400, message := "User already exists, Please Login", registeredUser := none },
     users)
  | none =>
    let u : User :=
      { id := freshId, username := username, email := email, password := hash password,
        bio := "", profilePicture := "", createdAt := now }
    ({ status := 201, message := "User registered successfully", registeredUser := some u },
     users ++ [u])

/-! ### Auth middleware (src/middleware/authMiddle.js 5-21) -/

/-- Outcome of the auth middleware for one request.  `exception` models an
error thrown outside the middleware's `try`/`catch` inside the `async`
function: the rejection is never turned into an HTTP response by the
middleware, so in particular no 401 is sent. -/
inductive AuthOutcome where
  | exception (msg : String)
  | unauthorized
  | authenticated (userId : String)
  deriving Repr, DecidableEq

/-- `authenticator` (src/middleware/authMiddle.js 5-21).  `verify` stands for
`jwt.verify` against the server secret: `some uid` when the token is valid
and embeds `uid`, `none` when verification throws (invalid, expired or
malformed token).  A missing `Authorization` header makes
`req?.headers?.authorization.split(" ")` throw a TypeError, and a header
without a token part reaches `throw new Error(...)`; both throws happen
before the `try` block, hence `exception`, not a 401. -/
def authenticator (verify : String → Option String) (authHeader : Option String) : AuthOutcome :=
  match authHeader with
  | none => .exception "TypeError: Cannot read properties of undefined"
  | some h =>
    match (jsSplit h ' ').get? 1 with
    | none => .exception "Not authorized to access this resource"
    | some t =>
      if t == "" then .exception "Not authorized to access this resource"
      else
        match verify t with
        | none => .unauthorized
        | some uid => .authenticated uid

/-- The revised `authenticator` (src/unnamed/part_006 4-22): a missing
`Authorization` header is answered with 401 up front; an absent token part
reaches `jwt.verify(undefined)`, which throws and is answered 401 too. -/
def authenticatorRevised (verify : String → Option String) (authHeader : Option String) :
    AuthOutcome :=
  match authHeader with
  | none => .unauthorized
  | some h =>
    match (jsSplit h ' ').get? 1 with
    | none => .unauthorized
    | some t =>
      match verify t with
      | none => .unauthorized
      | some uid => .authenticated uid

/-! ### Profile (`GET /api/user/profile/:userId`, src/unnamed/part_000 13-31) -/

/-- The profile projection sent to the caller: no password field exists in
the response shape. -/
structure ProfileView where
  id : String
  username : String
  bio : String
  profilePicture : String
  deriving Repr, DecidableEq

/-- Profile lookup body (after a successful ObjectId cast): 404 when the id
resolves to no user, otherwise the id/username/bio/profilePicture
projection. -/
def getProfile (users : List User) (uid : String) : Nat × Option ProfileView :=
  match findUser users uid with
  | none => (404, none)
  | some u =>
    (200, some { id := u.id, username := u.username, bio := u.bio,
                 profilePicture := u.profilePicture })

/-! ### Post creation (`POST /api/posts`, src/routes/posts.js 14-36) -/

/-- Mongoose `required: true` on a String path: the save is rejected when
the value is missing or the empty string. -/
def requiredStr : Option String → Bool
  | some s => s != ""
  | none => false

/-- `Post_Router.post("/")` (src/routes/posts.js 14-36).  The handler does
no validation of its own; `Post_Schema` marks `stockSymbol`, `title` and
`description` required, so `newPost.save()` rejects a missing or empty
value and the `catch` branch answers 500.  `tags` defaults to the empty
array, `user` is fixed to the authenticated caller, `comments` and `likes`
start empty. -/
def createPost (posts : List Post) (callerId : String)
    (stockSymbol title description : Option String) (tags : Option (List String))
    (freshId : String) (now : Nat) : (Nat × Option String) × List Post :=
  if requiredStr stockSymbol && requiredStr title && requiredStr description then
    let p : Post :=
      { id := freshId, user := callerId, stockSymbol := stockSymbol.getD "",
        title := title.getD "", description := description.getD "",
        tags := tags.getD [], createdAt := now }
    ((200, some freshId), posts ++ [p])
  else
    ((500, none), posts)

/-! ### Post listing (`GET /api/posts`, src/routes/comments.js 251-302) -/

/-- A list item of the paginated response: the `likesCount` projection. -/
structure PostListItem where
  postId : String
  stockSymbol : String
  title : String
  description : String
  likesCount : Nat
  createdAt : Nat
  deriving Repr, DecidableEq

/-- The `pagination` metadata object of the response. -/
structure PaginationMeta where
  currentPage : Nat
  totalPages : Nat
  totalPosts : Nat
  deriving Repr, DecidableEq

/-- JavaScript truthiness of an optional query-string parameter:
present and nonempty. -/
def truthyParam : Option String → Bool
  | some s => s != ""
  | none => false

/-- The Mongo filter built by the handler: exact `stockSymbol` match when
given, and `tags: { $in: tags.split(",") }` (the post's tag array meets the
requested set) when given; conditions are AND-combined. -/
def matchesQuery (stockSymbol tags : Option String) (p : Post) : Bool :=
  (!truthyParam stockSymbol || p.stockSymbol == stockSymbol.getD "") &&
  (!truthyParam tags || (jsSplit (tags.getD "") ',').any (fun t => p.tags.contains t))

/-- The handler's sort stage: `date` sorts by `createdAt` descending,
`likes` by like-count descending, anything else keeps natural order. -/
def sortPosts (sortBy : Option String) (l : List Post) : List Post :=
  if sortBy == some "date" then
    l.mergeSort (fun a b => decide (b.createdAt ≤ a.createdAt))
  else if sortBy == some "likes" then
    l.mergeSort (fun a b => decide (b.likes.length ≤ a.likes.length))
  else l

/-- `Post_Router.get("/")` with pagination (src/routes/comments.js 251-302):
page defaults to 1 and limit to 10, `skip = (page-1)*limit`,
`totalPosts = countDocuments(query)` over the same filter independent of the
slice, `totalPages = Math.ceil(totalPosts/limit)` (equal to
`(totalPosts + limit - 1) / limit` in natural division for positive limit),
and the items are the sorted, filtered list after skip/limit, projected with
`likesCount = likes.length`. -/
def listPosts (posts : List Post) (stockSymbol tags sortBy : Option String)
    (page limit : Option Nat) : PaginationMeta × List PostListItem :=
  let pageNumber := page.getD 1
  let limitNumber := limit.getD 10
  let skip := (pageNumber - 1) * limitNumber
  let matching := posts.filter (matchesQuery stockSymbol tags)
  let totalPosts := matching.length
  let selected := ((sortPosts sortBy matching).drop skip).take limitNumber
  ({ currentPage := pageNumber,
     totalPages := (totalPosts + limitNumber - 1) / limitNumber,
     totalPosts := totalPosts },
   selected.map (fun p =>
     { postId := p.id, stockSymbol := p.stockSymbol, title := p.title,
       description := p.description, likesCount := p.likes.length,
       createdAt := p.createdAt }))

/-! ### Post deletion, like, unlike (src/routes/posts.js 105-182) -/

/-- `Post_Router.delete("/:postId")` (src/routes/posts.js 105-123):
404 when the post is absent, 401 `User not authorized` when the caller is
not the recorded owner, otherwise `findByIdAndDelete` removes the record. -/
def deletePost (posts : List Post) (callerId pid : String) : Nat × List Post :=
  match findPost posts pid with
  | none => (404, posts)
  | some p =>
    if p.user != callerId then (401, posts)
    else (200, posts.filter (fun q => q.id != pid))

/-- `Post_Router.post("/:postId/like")` (src/routes/posts.js 132-153):
404 when the post is absent, 400 `Post already liked` when the caller is
already in `likes`, otherwise `likes.unshift(callerId)` and save. -/
def likePost (posts : List Post) (callerId pid : String) : Nat × List Post :=
  match findPost posts pid with
  | none => (404, posts)
  | some p =>
    if p.likes.contains callerId then (400, posts)
    else (200, savePost posts { p with likes := callerId :: p.likes })

/-- `Post_Router.delete("/:postId/like")` (src/routes/posts.js 162-182):
404 when the post is absent, 400 `Post has not yet been liked` when the
caller is not in `likes`, otherwise keep the likes different from the
caller and save. -/
def unlikePost (posts : List Post) (callerId pid : String) : Nat × List Post :=
  match findPost posts pid with
  | none => (404, posts)
  | some p =>
    if !p.likes.contains callerId then (400, posts)
    else (200, savePost posts { p with likes := p.likes.filter (fun x => x != callerId) })

/-! ### Comments (src/unnamed/part_002 63-87, src/routes/comments.js 41-60) -/

/-- `Comment_Router.post("/:postId/comments")` (src/unnamed/part_002 63-87):
404 when the referenced post is absent; otherwise the comment row is saved
(author = caller, parent = post) and its id is pushed onto the parent
post's `comments` array in a second write. -/
def addComment (posts : List Post) (comments : List Comment)
    (callerId pid content freshId : String) (now : Nat) :
    (Nat × Option String) × List Post × List Comment :=
  match findPost posts pid with
  | none => ((404, none), posts, comments)
  | some p =>
    let c : Comment :=
      { id := freshId, user := callerId, post := pid, content := content, createdAt := now }
    ((200, some freshId),
     savePost posts { p with comments := p.comments ++ [freshId] },
     comments ++ [c])

/-- `Comment_Router.delete("/:postId/comments/:commentId)"`
(src/routes/comments.js 41-60): 404 when the comment is absent, 401 when
the caller is not its author, otherwise `findByIdAndDelete`. -/
def deleteComment (comments : List Comment) (callerId cid : String) : Nat × List Comment :=
  match findComment comments cid with
  | none => (404, comments)
  | some c =>
    if c.user != callerId then (401, comments)
    else (200, comments.filter (fun q => q.id != cid))

/-! ### The ObjectId cast boundary -/

/-- Mongoose casts a path parameter to `ObjectId` before running the query;
a string that is not a 24-character hex string fails the cast and
`findById` throws a `CastError` (model of the library boundary). -/
def isValidObjectId (s : String) : Bool :=
  s.length == 24 &&
  s.toList.all (fun c => c.isDigit || ('a' ≤ c && c ≤ 'f') || ('A' ≤ c && c ≤ 'F'))

/-- `GET /api/posts/:postId` on the raw path parameter
(src/routes/posts.js 78-96): a thrown `CastError` lands in the `catch`
branch, which answers 500; only a successful lookup decides 404 vs 200. -/
def getPostStatusRaw (posts : List Post) (raw : String) : Nat :=
  if isValidObjectId raw then
    match findPost posts raw with
    | none => 404
    | some _ => 200
  else 500

/-- `DELETE /api/posts/:postId` on the raw path parameter. -/
def deletePostRaw (posts : List Post) (callerId raw : String) : Nat × List Post :=
  if isValidObjectId raw then deletePost posts callerId raw else (500, posts)

/-- `POST /api/posts/:postId/like` on the raw path parameter. -/
def likePostRaw (posts : List Post) (callerId raw : String) : Nat × List Post :=
  if isValidObjectId raw then likePost posts callerId raw else (500, posts)

/-- `DELETE /api/posts/:postId/like` on the raw path parameter. -/
def unlikePostRaw (posts : List Post) (callerId raw : String) : Nat × List Post :=
  if isValidObjectId raw then unlikePost posts callerId raw else (500, posts)

/-- `GET /api/user/profile/:userId` on the raw path parameter
(src/unnamed/part_000 13-31): `catch` answers 500 `Server Error`. -/
def getProfileRaw (users : List User) (raw : String) : Nat :=
  if isValidObjectId raw then (getProfile users raw).1 else 500

/-! ### The mutation state machine (for the like-set invariant) -/

/-- The persistent state the post/comment handlers touch. -/
structure AppState where
  posts : List Post := []
  comments : List Comment := []
  deriving Repr

/-- One authenticated mutation of the post/comment stores, with the
caller identity resolved by the auth gate. -/
inductive Op where
  | createPost (callerId : String) (stockSymbol title description : Option String)
      (tags : Option (List String)) (freshId : String) (now : Nat)
  | deletePost (callerId pid : String)
  | likePost (callerId pid : String)
  | unlikePost (callerId pid : String)
  | addComment (callerId pid content freshId : String) (now : Nat)
  | deleteComment (callerId cid : String)

/-- Apply one operation's store effect (the HTTP status is dropped). -/
def step (s : AppState) : Op → AppState
  | .createPost c sym t d tags fid now =>
    { s with posts := (createPost s.posts c sym t d tags fid now).2 }
  | .deletePost c pid => { s with posts := (deletePost s.posts c pid).2 }
  | .likePost c pid => { s with posts := (likePost s.posts c pid).2 }
  | .unlikePost c pid => { s with posts := (unlikePost s.posts c pid).2 }
  | .addComment c pid content fid now =>
    let r := addComment s.posts s.comments c pid content fid now
    { posts := r.2.1, comments := r.2.2 }
  | .deleteComment c cid => { s with comments := (deleteComment s.comments c cid).2 }

/-- The empty stores at startup. -/
def initialState : AppState := {}

/-- Run a trace of operations from the empty state. -/
def runOps (ops : List Op) : AppState := ops.foldl step initialState

/-- Every post's like-set holds a given user at most once. -/
def LikesOnce (s : AppState) : Prop := ∀ p ∈ s.posts, p.likes.Nodup

/-! ### Helper lemmas -/

lemma findPost_id {posts : List Post} {pid : String} {p : Post}
    (h : findPost posts pid = some p) : p.id = pid := by
  unfold findPost at h
  have h2 := @List.find?_some Post (fun q : Post => q.id == pid) p posts h
  exact eq_of_beq h2

lemma mem_of_findPost {posts : List Post} {pid : String} {p : Post}
    (h : findPost posts pid = some p) : p ∈ posts := by
  unfold findPost at h
  exact List.mem_of_find?_eq_some h

lemma findPost_savePost {posts : List Post} {pid : String} {p : Post} (q : Post)
    (hf : findPost posts pid = some p) (hq : q.id = pid) :
    findPost (savePost posts q) pid = some q := by
  induction posts with
  | nil => simp [findPost] at hf
  | cons r rs ih =>
    show findPost ((if (r.id == q.id : Bool) then q else r) :: savePost rs q) pid = some q
    by_cases hr : (r.id == q.id) = true
    · rw [if_pos hr]
      unfold findPost
      rw [List.find?_cons_of_pos]
      exact beq_iff_eq.mpr hq
    · rw [if_neg hr]
      have hrid : (r.id == pid) = false := by
        rcases hbe : (r.id == pid) with _ | _
        · rfl
        · exact absurd (beq_iff_eq.mpr ((eq_of_beq hbe).trans hq.symm)) hr
      have hf' : findPost rs pid = some p := by
        unfold findPost at hf
        rwa [List.find?_cons_of_neg] at hf
        simp [hrid]
      have hrec := ih hf'
      unfold findPost at hrec ⊢
      rw [List.find?_cons_of_neg]
      · exact hrec
      · simp [hrid]

lemma mem_savePost {posts : List Post} {q r : Post} (h : r ∈ savePost posts q) :
    r = q ∨ r ∈ posts := by
  unfold savePost at h
  obtain ⟨r0, hr0, heq⟩ := List.mem_map.mp h
  by_cases h0 : (r0.id == q.id) = true
  · left
    rw [if_pos h0] at heq
    exact heq.symm
  · right
    rw [if_neg h0] at heq
    exact heq ▸ hr0

lemma length_filter_ne_of_nodup {l : List String} {a : String}
    (hnd : l.Nodup) (hmem : a ∈ l) :
    (l.filter (fun x => x != a)).length + 1 = l.length := by
  induction l with
  | nil => cases hmem
  | cons b bs ih =>
    obtain ⟨hb, hnd'⟩ := List.nodup_cons.mp hnd
    rcases List.mem_cons.mp hmem with hba | hmem'
    · have hself : (b != a) = false := by rw [hba]; simp
      have hall : bs.filter (fun x => x != a) = bs := by
        apply List.filter_eq_self.mpr
        intro x hx
        apply bne_iff_ne.mpr
        intro hxa
        apply hb
        rw [← hba, ← hxa]
        exact hx
      simp [List.filter_cons, hself, hall]
    · have hbne : (b != a) = true := by
        apply bne_iff_ne.mpr
        intro hba
        exact hb (hba ▸ hmem')
      have := ih hnd' hmem'
      simp [List.filter_cons, hbne]
      omega

lemma ceil_mul_ge (a b : Nat) (h : 0 < b) : a ≤ ((a + b - 1) / b) * b := by
  rw [Nat.mul_comm]
  have h1 := Nat.div_add_mod (a + b - 1) b
  have h2 := Nat.mod_lt (a + b - 1) h
  omega

lemma ceil_mul_lt (a b : Nat) (h : 0 < b) : ((a + b - 1) / b) * b < a + b := by
  rw [Nat.mul_comm]
  have h1 := Nat.div_add_mod (a + b - 1) b
  have h2 := Nat.mod_lt (a + b - 1) h
  omega

lemma contains_false_not_mem {l : List String} {a : String}
    (h : l.contains a = false) : a ∉ l := by
  simpa using h

lemma contains_true_mem {l : List String} {a : String}
    (h : l.contains a = true) : a ∈ l := by
  simpa using h

/-! ### Branch shape lemmas for the handlers -/

lemma deletePost_absent {posts : List Post} {callerId pid : String}
    (hf : findPost posts pid = none) : deletePost posts callerId pid = (404, posts) := by
  unfold deletePost
  rw [hf]

lemma deletePost_forbidden {posts : List Post} {callerId pid : String} {p : Post}
    (hf : findPost posts pid = some p) (hne : (p.user != callerId) = true) :
    deletePost posts callerId pid = (401, posts) := by
  unfold deletePost
  rw [hf]
  exact if_pos hne

lemma deletePost_owned {posts : List Post} {callerId pid : String} {p : Post}
    (hf : findPost posts pid = some p) (hne : (p.user != callerId) = false) :
    deletePost posts callerId pid = (200, posts.filter (fun q => q.id != pid)) := by
  unfold deletePost
  rw [hf]
  refine if_neg ?_
  rw [hne]
  exact Bool.false_ne_true

lemma likePost_absent {posts : List Post} {callerId pid : String}
    (hf : findPost posts pid = none) : likePost posts callerId pid = (404, posts) := by
  unfold likePost
  rw [hf]

lemma likePost_already {posts : List Post} {callerId pid : String} {p : Post}
    (hf : findPost posts pid = some p) (hc : p.likes.contains callerId = true) :
    likePost posts callerId pid = (400, posts) := by
  unfold likePost
  rw [hf]
  exact if_pos hc

lemma likePost_insert {posts : List Post} {callerId pid : String} {p : Post}
    (hf : findPost posts pid = some p) (hc : p.likes.contains callerId = false) :
    likePost posts callerId pid
      = (200, savePost posts { p with likes := callerId :: p.likes }) := by
  unfold likePost
  rw [hf]
  refine if_neg ?_
  rw [hc]
  exact Bool.false_ne_true

lemma unlikePost_absent {posts : List Post} {callerId pid : String}
    (hf : findPost posts pid = none) : unlikePost posts callerId pid = (404, posts) := by
  unfold unlikePost
  rw [hf]

lemma unlikePost_notyet {posts : List Post} {callerId pid : String} {p : Post}
    (hf : findPost posts pid = some p) (hc : p.likes.contains callerId = false) :
    unlikePost posts callerId pid = (400, posts) := by
  unfold unlikePost
  rw [hf]
  refine if_pos ?_
  rw [hc]
  rfl

lemma unlikePost_remove {posts : List Post} {callerId pid : String} {p : Post}
    (hf : findPost posts pid = some p) (hc : p.likes.contains callerId = true) :
    unlikePost posts callerId pid
      = (200, savePost posts { p with likes := p.likes.filter (fun x => x != callerId) }) := by
  unfold unlikePost
  rw [hf]
  refine if_neg ?_
  rw [hc]
  simp

lemma addComment_absent {posts : List Post} {comments : List Comment}
    {callerId pid content freshId : String} {now : Nat}
    (hf : findPost posts pid = none) :
    addComment posts comments callerId pid content freshId now = ((404, none), posts, comments) := by
  unfold addComment
  rw [hf]

lemma addComment_found {posts : List Post} {comments : List Comment}
    {callerId pid content freshId : String} {now : Nat} {p : Post}
    (hf : findPost posts pid = some p) :
    addComment posts comments callerId pid content freshId now
      = ((200, some freshId),
         savePost posts { p with comments := p.comments ++ [freshId] },
         comments ++ [{ id := freshId, user := callerId, post := pid, content := content,
                        createdAt := now }]) := by
  unfold addComment
  rw [hf]

lemma deleteComment_absent {comments : List Comment} {callerId cid : String}
    (hf : findComment comments cid = none) :
    deleteComment comments callerId cid = (404, comments) := by
  unfold deleteComment
  rw [hf]

lemma deleteComment_forbidden {comments : List Comment} {callerId cid : String} {c : Comment}
    (hf : findComment comments cid = some c) (hne : (c.user != callerId) = true) :
    deleteComment comments callerId cid = (401, comments) := by
  unfold deleteComment
  rw [hf]
  exact if_pos hne

lemma createPost_ok {posts : List Post} {callerId : String}
    {stockSymbol title description : Option String} {tags : Option (List String)}
    {freshId : String} {now : Nat}
    (hok : (requiredStr stockSymbol && requiredStr title && requiredStr description) = true) :
    createPost posts callerId stockSymbol title description tags freshId now
      = ((200, some freshId),
         posts ++ [{ id := freshId, user := callerId, stockSymbol := stockSymbol.getD "",
                     title := title.getD "", description := description.getD "",
                     tags := tags.getD [], createdAt := now }]) := by
  unfold createPost
  exact if_pos hok

lemma createPost_invalid {posts : List Post} {callerId : String}
    {stockSymbol title description : Option String} {tags : Option (List String)}
    {freshId : String} {now : Nat}
    (hbad : (requiredStr stockSymbol && requiredStr title && requiredStr description) = false) :
    createPost posts callerId stockSymbol title description tags freshId now
      = ((500, none), posts) := by
  unfold createPost
  exact if_neg (by simp [hbad])

/-! ### Concrete fixtures -/

/-- A post owned by user `alice` with no likes yet. -/
def alicePost : Post :=
  { id := "p1", user := "alice", stockSymbol := "AAPL", title := "t", description := "d" }

/-- A post owned by `alice`, already liked by `bob` and `carol`. -/
def likedPost : Post :=
  { id := "p1", user := "alice", stockSymbol := "AAPL", title := "t", description := "d",
    likes := ["bob", "carol"] }

/-! ### Claims -/

/-- Claim C1 (code-bug evidence): registering `alice` echoes the saved user
record in the `registeredUser` field of the response, and its `password`
field is exactly the stored bcrypt hash of the submitted password — so the
response payload contains the stored password hash, against the stated
invariant (and against the handler's own doc comment, which promises only
`userId`). -/
theorem register_echoes_password_hash :
    ((register [] (String.append "bcrypt$") "507f191e810c19729de860ea" 0
        "alice" "a@x.com" "secret").1.registeredUser.map User.password)
      = some (String.append "bcrypt$" "secret") ∧
    ((register [] (String.append "bcrypt$") "507f191e810c19729de860ea" 0
        "alice" "a@x.com" "secret").2.map User.password)
      = [String.append "bcrypt$" "secret"] :=
  ⟨rfl, rfl⟩

/-- Claim C2 (code-bug evidence): a protected request with no
`Authorization` header is not answered with the claimed 401 — the
middleware throws before its `try`/`catch` (uncaught inside the async
function), whatever the token verifier; a header with no token part
likewise throws instead of answering 401. -/
theorem authenticator_missing_header_throws (verify : String → Option String) :
    authenticator verify none
        = AuthOutcome.exception "TypeError: Cannot read properties of undefined" ∧
    authenticator verify (some "Bearer")
        = AuthOutcome.exception "Not authorized to access this resource" :=
  ⟨rfl, rfl⟩

/-- Claim C3 counterexample: with an empty store, caller `u1` is not the
owner of post `p1` (vacuously: no such post), yet delete answers 404
NotFound, not 401/403 Forbidden — a non-owner delete does not always fail
with Forbidden regardless of the post existing. -/
theorem deletePost_nonowner_not_always_forbidden :
    ¬ (∀ (posts : List Post) (callerId pid : String),
        (∀ p, findPost posts pid = some p → p.user ≠ callerId) →
        (deletePost posts callerId pid).1 = 401 ∨ (deletePost posts callerId pid).1 = 403) := by
  intro h
  have h2 := h [] "u1" "p1" (by intro p hp; simp [findPost] at hp)
  rcases h2 with h2 | h2 <;> exact absurd h2 (by decide)

/-- Claim C3 amended: when the post exists and the caller is not its owner,
delete answers 401 Forbidden and the store is unchanged (the post is still
retrievable by `findPost`); an absent post yields 404 NotFound, also with
the store unchanged.  Comment deletion behaves the same under its author
check. -/
theorem delete_requires_ownership (posts : List Post) (comments : List Comment)
    (callerId pid cid : String) :
    (findPost posts pid = none → deletePost posts callerId pid = (404, posts)) ∧
    (∀ p, findPost posts pid = some p → p.user ≠ callerId →
      deletePost posts callerId pid = (401, posts) ∧
      findPost (deletePost posts callerId pid).2 pid = some p) ∧
    (findComment comments cid = none → deleteComment comments callerId cid = (404, comments)) ∧
    (∀ c, findComment comments cid = some c → c.user ≠ callerId →
      deleteComment comments callerId cid = (401, comments)) := by
  refine ⟨?_, ?_, ?_, ?_⟩
  · intro h
    simp [deletePost, h]
  · intro p hp hneq
    have hne : (p.user != callerId) = true := bne_iff_ne.mpr hneq
    refine ⟨by simp [deletePost, hp, hne], ?_⟩
    have hd : deletePost posts callerId pid = (401, posts) := by simp [deletePost, hp, hne]
    rw [hd]
    exact hp
  · intro h
    simp [deleteComment, h]
  · intro c hc hneq
    have hne : (c.user != callerId) = true := bne_iff_ne.mpr hneq
    simp [deleteComment, hc, hne]

/-- Witness for C3's amended theorem: `bob` deleting `alice`'s post gets
401 and the post is still retrievable afterwards. -/
theorem delete_requires_ownership_witness :
    deletePost [alicePost] "bob" "p1" = (401, [alicePost]) ∧
    findPost (deletePost [alicePost] "bob" "p1").2 "p1" = some alicePost :=
  (delete_requires_ownership [alicePost] [] "bob" "p1" "c1").2.1 alicePost (by decide) (by decide)

/-- Claim C4: like answers 404 NotFound iff the post is absent; otherwise
400 AlreadyLiked iff the caller is already a member of the like-set;
otherwise it answers 200 and the saved post carries the caller at the
front of the like ordering. -/
theorem likePost_spec (posts : List Post) (callerId pid : String) :
    ((likePost posts callerId pid).1 = 404 ↔ findPost posts pid = none) ∧
    ((likePost posts callerId pid).1 = 400 ↔
      ∃ p, findPost posts pid = some p ∧ callerId ∈ p.likes) ∧
    (∀ p, findPost posts pid = some p → callerId ∉ p.likes →
      (likePost posts callerId pid).1 = 200 ∧
      findPost (likePost posts callerId pid).2 pid
        = some { p with likes := callerId :: p.likes }) := by
  rcases hf : findPost posts pid with _ | p
  · have he := @likePost_absent posts callerId pid hf
    refine ⟨?_, ?_, ?_⟩
    · rw [he]
      simp
    · rw [he]
      constructor
      · intro h4
        simp at h4
      · rintro ⟨p, hp, -⟩
        exact Option.noConfusion hp
    · intro p hp
      exact Option.noConfusion hp
  · by_cases hcb : p.likes.contains callerId = true
    · have hmem := contains_true_mem hcb
      have he := likePost_already hf hcb
      refine ⟨?_, ?_, ?_⟩
      · rw [he]
        constructor
        · intro h4
          simp at h4
        · intro hn
          exact Option.noConfusion hn
      · rw [he]
        constructor
        · intro _
          exact ⟨p, rfl, hmem⟩
        · intro _
          simp
      · intro p2 hp2 hnot
        injection hp2 with hpp
        subst hpp
        exact absurd hmem hnot
    · have hcf : p.likes.contains callerId = false := by
        cases h2 : p.likes.contains callerId
        · rfl
        · exact absurd h2 hcb
      have hnmem := contains_false_not_mem hcf
      have he := likePost_insert hf hcf
      refine ⟨?_, ?_, ?_⟩
      · rw [he]
        constructor
        · intro h4
          simp at h4
        · intro hn
          exact Option.noConfusion hn
      · rw [he]
        constructor
        · intro h4
          simp at h4
        · rintro ⟨p2, hp2, hm⟩
          injection hp2 with hpp
          subst hpp
          exact absurd hm hnmem
      · intro p2 hp2 _
        injection hp2 with hpp
        subst hpp
        rw [he]
        have hq : (({ p with likes := callerId :: p.likes } : Post)).id = pid := by
          show p.id = pid
          exact findPost_id hf
        exact ⟨rfl, findPost_savePost _ hf hq⟩

/-- Witness for C4: `bob` liking `alice`'s not-yet-liked post succeeds and
lands at the front of the like list. -/
theorem likePost_spec_witness :
    (likePost [alicePost] "bob" "p1").1 = 200 ∧
    findPost (likePost [alicePost] "bob" "p1").2 "p1"
      = some { alicePost with likes := ["bob"] } :=
  (likePost_spec [alicePost] "bob" "p1").2.2 alicePost (by decide) (by decide)

lemma mem_contains_true {l : List String} {a : String} (h : a ∈ l) :
    l.contains a = true := by
  simpa using h

/-- Claim C5: unlike on an absent post answers 404 NotFound; on an existing
post it answers 400 NotYetLiked iff the caller is not in the like-set; when
the caller is in the like-set (held at most once — the like-set invariant)
it answers 200, removes the caller, and the like count drops by exactly 1. -/
theorem unlikePost_spec (posts : List Post) (callerId pid : String) :
    (findPost posts pid = none → unlikePost posts callerId pid = (404, posts)) ∧
    (∀ p, findPost posts pid = some p →
      ((unlikePost posts callerId pid).1 = 400 ↔ callerId ∉ p.likes)) ∧
    (∀ p, findPost posts pid = some p → callerId ∈ p.likes → p.likes.Nodup →
      (unlikePost posts callerId pid).1 = 200 ∧
      ∃ p2, findPost (unlikePost posts callerId pid).2 pid = some p2 ∧
        callerId ∉ p2.likes ∧ p2.likes.length + 1 = p.likes.length) := by
  refine ⟨?_, ?_, ?_⟩
  · intro hf
    exact unlikePost_absent hf
  · intro p hf
    by_cases hcb : p.likes.contains callerId = true
    · have he := unlikePost_remove hf hcb
      rw [he]
      constructor
      · intro h4
        simp at h4
      · intro hnot
        exact absurd (contains_true_mem hcb) hnot
    · have hcf : p.likes.contains callerId = false := by
        cases h2 : p.likes.contains callerId
        · rfl
        · exact absurd h2 hcb
      have he := unlikePost_notyet hf hcf
      rw [he]
      constructor
      · intro _
        exact contains_false_not_mem hcf
      · intro _
        rfl
  · intro p hf hmem hnd
    have hcb : p.likes.contains callerId = true := mem_contains_true hmem
    have he := unlikePost_remove hf hcb
    rw [he]
    refine ⟨rfl, ?_⟩
    have hq : (({ p with likes := p.likes.filter (fun x => x != callerId) } : Post)).id
        = pid := by
      show p.id = pid
      exact findPost_id hf
    refine ⟨{ p with likes := p.likes.filter (fun x => x != callerId) },
      findPost_savePost _ hf hq, ?_, ?_⟩
    · intro hmem2
      have hcon : (callerId != callerId) = true := (List.mem_filter.mp hmem2).2
      simp at hcon
    · exact length_filter_ne_of_nodup hnd hmem

/-- Witness for C5: `bob` unliking the post he liked gets 200 and the like
count drops from 2 to 1. -/
theorem unlikePost_spec_witness :
    (unlikePost [likedPost] "bob" "p1").1 = 200 ∧
    ∃ p2, findPost (unlikePost [likedPost] "bob" "p1").2 "p1" = some p2 ∧
      "bob" ∉ p2.likes ∧ p2.likes.length + 1 = likedPost.likes.length :=
  (unlikePost_spec [likedPost] "bob" "p1").2.2 likedPost (by decide) (by decide) (by decide)

lemma likesOnce_step (s : AppState) (op : Op) (hs : LikesOnce s) : LikesOnce (step s op) := by
  cases op with
  | createPost c sym t d tags fid now =>
    intro q hq
    have hq' : q ∈ (createPost s.posts c sym t d tags fid now).2 := hq
    rcases hb : (requiredStr sym && requiredStr t && requiredStr d) with _ | _
    · rw [createPost_invalid hb] at hq'
      exact hs q hq'
    · rw [createPost_ok hb] at hq'
      rcases List.mem_append.mp hq' with h | h
      · exact hs q h
      · rw [List.mem_singleton.mp h]
        exact List.nodup_nil
  | deletePost c pid =>
    intro q hq
    have hq' : q ∈ (deletePost s.posts c pid).2 := hq
    rcases hf : findPost s.posts pid with _ | p
    · rw [deletePost_absent hf] at hq'
      exact hs q hq'
    · rcases hne : (p.user != c) with _ | _
      · rw [deletePost_owned hf hne] at hq'
        exact hs q (List.mem_of_mem_filter hq')
      · rw [deletePost_forbidden hf hne] at hq'
        exact hs q hq'
  | likePost c pid =>
    intro q hq
    have hq' : q ∈ (likePost s.posts c pid).2 := hq
    rcases hf : findPost s.posts pid with _ | p
    · rw [likePost_absent hf] at hq'
      exact hs q hq'
    · rcases hc : p.likes.contains c with _ | _
      · rw [likePost_insert hf hc] at hq'
        rcases mem_savePost hq' with rfl | h
        · show (c :: p.likes).Nodup
          exact List.nodup_cons.mpr ⟨contains_false_not_mem hc, hs p (mem_of_findPost hf)⟩
        · exact hs q h
      · rw [likePost_already hf hc] at hq'
        exact hs q hq'
  | unlikePost c pid =>
    intro q hq
    have hq' : q ∈ (unlikePost s.posts c pid).2 := hq
    rcases hf : findPost s.posts pid with _ | p
    · rw [unlikePost_absent hf] at hq'
      exact hs q hq'
    · rcases hc : p.likes.contains c with _ | _
      · rw [unlikePost_notyet hf hc] at hq'
        exact hs q hq'
      · rw [unlikePost_remove hf hc] at hq'
        rcases mem_savePost hq' with rfl | h
        · show (p.likes.filter (fun x => x != c)).Nodup
          exact (hs p (mem_of_findPost hf)).filter _
        · exact hs q h
  | addComment c pid content fid now =>
    intro q hq
    have hq' : q ∈ (addComment s.posts s.comments c pid content fid now).2.1 := hq
    rcases hf : findPost s.posts pid with _ | p
    · rw [addComment_absent hf] at hq'
      exact hs q hq'
    · rw [addComment_found hf] at hq'
      rcases mem_savePost hq' with rfl | h
      · show p.likes.Nodup
        exact hs p (mem_of_findPost hf)
      · exact hs q h
  | deleteComment c cid =>
    intro q hq
    exact hs q hq

lemma likesOnce_foldl (ops : List Op) :
    ∀ s : AppState, LikesOnce s → LikesOnce (ops.foldl step s) := by
  induction ops with
  | nil =>
    intro s hs
    exact hs
  | cons op rest ih =>
    intro s hs
    exact ih (step s op) (likesOnce_step s op hs)

/-- Claim C6: in every state every operation preserves the invariant that a
post's like-set holds each user at most once (like checks membership before
the front insert; unlike filters the caller out), and hence every state
reachable from startup by a trace of operations satisfies it. -/
theorem like_set_member_at_most_once :
    (∀ (s : AppState) (op : Op), LikesOnce s → LikesOnce (step s op)) ∧
    (∀ ops : List Op, LikesOnce (runOps ops)) :=
  ⟨likesOnce_step,
   fun ops => likesOnce_foldl ops initialState (fun p hp => absurd hp (List.not_mem_nil p))⟩

/-- Witness for C6: one like step from the empty state keeps the invariant. -/
theorem like_set_member_at_most_once_witness :
    LikesOnce (step { posts := [], comments := [] } (Op.likePost "u1" "p1")) :=
  like_set_member_at_most_once.1 { posts := [], comments := [] } (Op.likePost "u1" "p1")
    (fun p hp => absurd hp (List.not_mem_nil p))

/-- Claim C7 counterexample: creating a post with an empty title is answered
with 500 (the Mongoose required-field rejection lands in the handler's
`catch`), which is not a 400-class InvalidInput response. -/
theorem createPost_empty_title_not_invalid_input :
    (createPost [] "u1" (some "AAPL") (some "") (some "desc") none "p9" 0).1.1 = 500 ∧
    ¬ (400 ≤ (createPost [] "u1" (some "AAPL") (some "") (some "desc") none "p9" 0).1.1 ∧
        (createPost [] "u1" (some "AAPL") (some "") (some "desc") none "p9" 0).1.1 < 500) :=
  ⟨rfl, by decide⟩

/-- Claim C7 amended: a missing or empty `stockSymbol`/`title`/`description`
makes create answer 500 Internal with the store unchanged (there is no
400-level validation); when all three are present and nonempty, create
succeeds with the authenticated caller as owner and `tags` defaulting to
the empty collection when omitted. -/
theorem createPost_required_fields (posts : List Post) (callerId : String)
    (stockSymbol title description : Option String) (tags : Option (List String))
    (freshId : String) (now : Nat) :
    ((requiredStr stockSymbol && requiredStr title && requiredStr description) = false →
      createPost posts callerId stockSymbol title description tags freshId now
        = ((500, none), posts)) ∧
    (∀ s t d, stockSymbol = some s → title = some t → description = some d →
      s ≠ "" → t ≠ "" → d ≠ "" →
      (createPost posts callerId stockSymbol title description tags freshId now).1
          = (200, some freshId) ∧
      (createPost posts callerId stockSymbol title description tags freshId now).2
          = posts ++ [{ id := freshId, user := callerId, stockSymbol := s, title := t,
                        description := d, tags := tags.getD [], createdAt := now }]) := by
  refine ⟨?_, ?_⟩
  · intro hbad
    exact createPost_invalid hbad
  · intro s t d hs ht hd hs0 ht0 hd0
    subst hs
    subst ht
    subst hd
    have hok : (requiredStr (some s) && requiredStr (some t) && requiredStr (some d))
        = true := by
      simp [requiredStr, hs0, ht0, hd0]
    rw [createPost_ok hok]
    exact ⟨rfl, rfl⟩

/-- Witness for C7's amended theorem: a fully specified post with omitted
tags is created with empty tags and the caller as owner. -/
theorem createPost_required_fields_witness :
    (createPost [] "alice" (some "AAPL") (some "t") (some "d") none "p1" 5).1
        = (200, some "p1") ∧
    (createPost [] "alice" (some "AAPL") (some "t") (some "d") none "p1" 5).2
        = [{ id := "p1", user := "alice", stockSymbol := "AAPL", title := "t",
             description := "d", tags := [], createdAt := 5 }] :=
  (createPost_required_fields [] "alice" (some "AAPL") (some "t") (some "d") none "p1" 5).2
    "AAPL" "t" "d" rfl rfl rfl (by decide) (by decide) (by decide)

lemma length_sortPosts (sortBy : Option String) (l : List Post) :
    (sortPosts sortBy l).length = l.length := by
  unfold sortPosts
  split
  · exact List.length_mergeSort l
  · split
    · exact List.length_mergeSort l
    · rfl

/-- Claim C8: list pagination is 1-indexed with defaults page 1 and limit
10; the metadata reports the requested page, the total matching count from
the filter alone, and a ceiling page count (characterised by the two
multiplicative bounds); the returned slice is the matching list after
skipping `(page-1)*limit` items, so its length is
`min limit (totalMatching - skip)`. -/
theorem listPosts_spec (posts : List Post) (stockSymbol tags sortBy : Option String)
    (page limit : Option Nat) (_hpage : 1 ≤ page.getD 1) (hlimit : 1 ≤ limit.getD 10) :
    (listPosts posts stockSymbol tags sortBy page limit).1.currentPage = page.getD 1 ∧
    (listPosts posts stockSymbol tags sortBy page limit).1.totalPosts
        = (posts.filter (matchesQuery stockSymbol tags)).length ∧
    (listPosts posts stockSymbol tags sortBy page limit).2.length
        = min (limit.getD 10)
            ((posts.filter (matchesQuery stockSymbol tags)).length
              - (page.getD 1 - 1) * limit.getD 10) ∧
    (posts.filter (matchesQuery stockSymbol tags)).length
        ≤ (listPosts posts stockSymbol tags sortBy page limit).1.totalPages * limit.getD 10 ∧
    (listPosts posts stockSymbol tags sortBy page limit).1.totalPages * limit.getD 10
        < (posts.filter (matchesQuery stockSymbol tags)).length + limit.getD 10 := by
  have hL : 0 < limit.getD 10 := hlimit
  refine ⟨rfl, rfl, ?_, ?_, ?_⟩
  · simp only [listPosts]
    rw [List.length_map, List.length_take, List.length_drop, length_sortPosts]
  · simp only [listPosts]
    exact ceil_mul_ge _ _ hL
  · simp only [listPosts]
    exact ceil_mul_lt _ _ hL

/-- A distinct stored post for the pagination scenario. -/
def mkPost (i : Nat) : Post :=
  { id := String.append "p" (toString i), user := "alice", stockSymbol := "AAPL",
    title := "t", description := "d", createdAt := i }

/-- Fifteen stored posts, all matching the empty filter. -/
def posts15 : List Post := (List.range 15).map mkPost

/-- Witness for C8: page 2 with limit 10 over 15 matching posts returns 5
items, totalPages 2, totalPosts 15. -/
theorem listPosts_spec_witness :
    (listPosts posts15 none none none (some 2) (some 10)).2.length = 5 ∧
    (listPosts posts15 none none none (some 2) (some 10)).1.totalPages = 2 ∧
    (listPosts posts15 none none none (some 2) (some 10)).1.totalPosts = 15 := by
  have h := listPosts_spec posts15 none none none (some 2) (some 10) (by decide) (by decide)
  refine ⟨?_, ?_, ?_⟩
  · rw [h.2.2.1]
    decide
  · decide
  · rw [h.2.1]
    decide

/-- Claim C9: comment add answers 404 NotFound iff the referenced post does
not exist (leaving both stores unchanged); on success it answers 200,
appends the comment row with the caller as author and the post as parent,
and appends the new comment id to the parent post's comment list. -/
theorem addComment_spec (posts : List Post) (comments : List Comment)
    (callerId pid content freshId : String) (now : Nat) :
    ((addComment posts comments callerId pid content freshId now).1.1 = 404
        ↔ findPost posts pid = none) ∧
    (findPost posts pid = none →
      addComment posts comments callerId pid content freshId now
        = ((404, none), posts, comments)) ∧
    (∀ p, findPost posts pid = some p →
      (addComment posts comments callerId pid content freshId now).1 = (200, some freshId) ∧
      (addComment posts comments callerId pid content freshId now).2.2
        = comments ++ [{ id := freshId, user := callerId, post := pid, content := content,
                         createdAt := now }] ∧
      findPost (addComment posts comments callerId pid content freshId now).2.1 pid
        = some { p with comments := p.comments ++ [freshId] }) := by
  rcases hf : findPost posts pid with _ | p
  · have he := @addComment_absent posts comments callerId pid content freshId now hf
    refine ⟨?_, fun _ => he, ?_⟩
    · rw [he]
      simp
    · intro p hp
      exact Option.noConfusion hp
  · have he := @addComment_found posts comments callerId pid content freshId now p hf
    refine ⟨?_, ?_, ?_⟩
    · rw [he]
      constructor
      · intro h4
        simp at h4
      · intro hn
        exact Option.noConfusion hn
    · intro hn
      exact Option.noConfusion hn
    · intro p2 hp2
      injection hp2 with hpp
      subst hpp
      rw [he]
      refine ⟨rfl, rfl, ?_⟩
      have hq : (({ p with comments := p.comments ++ [freshId] } : Post)).id = pid := by
        show p.id = pid
        exact findPost_id hf
      exact findPost_savePost _ hf hq

/-- Witness for C9: `bob` commenting on `alice`'s post stores the comment
row and the post's comment list gains its id. -/
theorem addComment_spec_witness :
    (addComment [alicePost] [] "bob" "p1" "nice" "c1" 7).1 = (200, some "c1") ∧
    (addComment [alicePost] [] "bob" "p1" "nice" "c1" 7).2.2
      = [{ id := "c1", user := "bob", post := "p1", content := "nice", createdAt := 7 }] ∧
    findPost (addComment [alicePost] [] "bob" "p1" "nice" "c1" 7).2.1 "p1"
      = some { alicePost with comments := ["c1"] } :=
  (addComment_spec [alicePost] [] "bob" "p1" "nice" "c1" 7).2.2 alicePost (by decide)

/-- Claim C10: on a path parameter that is not a castable ObjectId, every
id-lookup handler (get post, delete, like, unlike, get profile) answers 500
(the `CastError` falls into the `catch` branch), never 404; each answers
404 exactly when the id is castable and resolves to no record. -/
theorem malformed_id_yields_internal (posts : List Post) (users : List User)
    (callerId raw : String) :
    (isValidObjectId raw = false →
      getPostStatusRaw posts raw = 500 ∧
      (deletePostRaw posts callerId raw).1 = 500 ∧
      (likePostRaw posts callerId raw).1 = 500 ∧
      (unlikePostRaw posts callerId raw).1 = 500 ∧
      getProfileRaw users raw = 500) ∧
    (getPostStatusRaw posts raw = 404 ↔
      isValidObjectId raw = true ∧ findPost posts raw = none) ∧
    ((deletePostRaw posts callerId raw).1 = 404 ↔
      isValidObjectId raw = true ∧ findPost posts raw = none) ∧
    ((likePostRaw posts callerId raw).1 = 404 ↔
      isValidObjectId raw = true ∧ findPost posts raw = none) ∧
    ((unlikePostRaw posts callerId raw).1 = 404 ↔
      isValidObjectId raw = true ∧ findPost posts raw = none) ∧
    (getProfileRaw users raw = 404 ↔
      isValidObjectId raw = true ∧ findUser users raw = none) := by
  by_cases hv : isValidObjectId raw = true
  · have hgp : getPostStatusRaw posts raw
        = (match findPost posts raw with
           | none => 404
           | some _ => 200) := by
      unfold getPostStatusRaw
      rw [if_pos hv]
    have hdp : deletePostRaw posts callerId raw = deletePost posts callerId raw := by
      unfold deletePostRaw
      rw [if_pos hv]
    have hlp : likePostRaw posts callerId raw = likePost posts callerId raw := by
      unfold likePostRaw
      rw [if_pos hv]
    have hup : unlikePostRaw posts callerId raw = unlikePost posts callerId raw := by
      unfold unlikePostRaw
      rw [if_pos hv]
    have hpr : getProfileRaw users raw = (getProfile users raw).1 := by
      unfold getProfileRaw
      rw [if_pos hv]
    refine ⟨?_, ?_, ?_, ?_, ?_, ?_⟩
    · intro hfalse
      rw [hv] at hfalse
      exact absurd hfalse (by decide)
    · rw [hgp]
      rcases hfp : findPost posts raw with _ | p
      · simp [hv]
      · simp
    · rw [hdp]
      rcases hfp : findPost posts raw with _ | p
      · rw [deletePost_absent hfp]
        simp [hv]
      · rcases hne : (p.user != callerId) with _ | _
        · rw [deletePost_owned hfp hne]
          simp
        · rw [deletePost_forbidden hfp hne]
          simp
    · rw [hlp]
      rcases hfp : findPost posts raw with _ | p
      · rw [likePost_absent hfp]
        simp [hv]
      · rcases hc : p.likes.contains callerId with _ | _
        · rw [likePost_insert hfp hc]
          simp
        · rw [likePost_already hfp hc]
          simp
    · rw [hup]
      rcases hfp : findPost posts raw with _ | p
      · rw [unlikePost_absent hfp]
        simp [hv]
      · rcases hc : p.likes.contains callerId with _ | _
        · rw [unlikePost_notyet hfp hc]
          simp
        · rw [unlikePost_remove hfp hc]
          simp
    · rw [hpr]
      simp only [getProfile]
      rcases hfu : findUser users raw with _ | u
      · simp [hv]
      · simp
  · have hvf : isValidObjectId raw = false := by
      cases h2 : isValidObjectId raw
      · rfl
      · exact absurd h2 hv
    refine ⟨?_, ?_, ?_, ?_, ?_, ?_⟩
    · intro _
      exact ⟨by simp [getPostStatusRaw, hvf], by simp [deletePostRaw, hvf],
             by simp [likePostRaw, hvf], by simp [unlikePostRaw, hvf],
             by simp [getProfileRaw, hvf]⟩
    · simp [getPostStatusRaw, hvf]
    · simp [deletePostRaw, hvf]
    · simp [likePostRaw, hvf]
    · simp [unlikePostRaw, hvf]
    · simp [getProfileRaw, hvf]

/-- Witness for C10: a non-hex path parameter gets 500 from the post lookup
while a castable but unknown ObjectId gets 404. -/
theorem malformed_id_yields_internal_witness :
    getPostStatusRaw [] "not-an-objectid" = 500 ∧
    getPostStatusRaw [] "507f1f77bcf86cd799439011" = 404 :=
  ⟨((malformed_id_yields_internal [] [] "u1" "not-an-objectid").1 (by decide)).1,
   (malformed_id_yields_internal [] [] "u1" "507f1f77bcf86cd799439011").2.1.mpr
     ⟨by decide, rfl⟩⟩

end AlphaTribe
